import Mathlib

set_option maxRecDepth 1000000

/-!
Verification development for the partition-analyzer repository.

The repository contains two Go source files sharing the same decoding
logic for MBR / GPT partition tables:
* `wasm-ver.go` — a browser-embedded binding whose core is
  `analyzeDiskImage`, `readMBRPartitions`, `readGPTPartitions`;
* a command-line shell with its own `readMBRPartitions` /
  `readGPTPartitions` working on a seekable file.

We embed both shallowly.  Bytes are natural numbers taken mod 256 at
every read.  Go unsigned arithmetic wraps (`u32`, `u64`); Go `int` is
64-bit two's complement on both hosts, modelled by `toInt64` / `i64`.
Go slice and index expressions are bounds-checked at run time; a failed
check is a runtime panic, modelled by `Except GoPanic`.  A Go slice is a
(start, length, capacity) view into the underlying buffer: re-slicing is
allowed up to the capacity, indexing only below the length.
`float64` conversion of an integer is rounding to 53 significand bits
(round half to even), modelled exactly on `ℚ` by `f64`; all divisions of
the resulting values by `1024*1024*1024` are exact in `float64`.
-/

/-- A Go byte buffer: bytes as naturals (reduced mod 256 at each access). -/
abbrev Bytes := List Nat

/-- Reduce to a byte value, as storing into a Go `byte` does. -/
def u8 (n : Nat) : Nat := n % 256

/-- Go `uint32` arithmetic wraps modulo `2^32`. -/
def u32 (n : Nat) : Nat := n % 4294967296

/-- Go `uint64` arithmetic wraps modulo `2^64`. -/
def u64 (n : Nat) : Nat := n % 18446744073709551616

/-- The Go conversion `int(x)` of a `uint64` value: two's-complement
reinterpretation of the low 64 bits. -/
def toInt64 (n : Nat) : Int :=
  if n % 18446744073709551616 < 9223372036854775808 then
    ((n % 18446744073709551616 : Nat) : Int)
  else
    ((n % 18446744073709551616 : Nat) : Int) - 18446744073709551616

/-- Go 64-bit signed addition wraps two's complement. -/
def i64 (z : Int) : Int :=
  (z + 9223372036854775808) % 18446744073709551616 - 9223372036854775808

/-- The byte stored at index `i` of a buffer (0 beyond the end; a real
access is always guarded by a bounds check before this is used). -/
def byteAt (d : Bytes) (i : Nat) : Nat := u8 (d.getD i 0)

/-- Little-endian value of `k` bytes starting at absolute offset `off`. -/
def leN (d : Bytes) (off : Nat) : Nat → Nat
  | 0 => 0
  | k + 1 => byteAt d off + 256 * leN d (off + 1) k

/-- Little-endian value of a detached list of bytes (Go
`binary.LittleEndian.UintNN` applied to a copied buffer). -/
def leBytes (l : List Nat) : Nat := l.foldr (fun b acc => b + 256 * acc) 0

/-- `float64` conversion of a nonnegative integer: exact below `2^53`,
otherwise round to 53 significand bits, half to even.  Every value a
`float64` holds in this range is an integer, so the result is a `Nat`.
The subsequent `float64` division by `1024*1024*1024 = 2^30` only
shifts the exponent and is exact, so it is modelled as the exact
rational `mkRat (f64 n) 1073741824`. -/
def f64 (n : Nat) : Nat :=
  if n ≤ 9007199254740992 then n
  else
    let k := Nat.log2 n
    let sh := k - 52
    let q := n / 2 ^ sh
    let r := n % 2 ^ sh
    let half := 2 ^ (sh - 1)
    let q2 := if half < r ∨ (r = half ∧ q % 2 = 1) then q + 1 else q
    q2 * 2 ^ sh

/-- A Go runtime panic from a failed bounds check. -/
inductive GoPanic where
  | sliceBounds
  | indexBounds
  deriving Repr, DecidableEq

instance {ε α : Type} [DecidableEq ε] [DecidableEq α] :
    DecidableEq (Except ε α) := fun a b =>
  match a, b with
  | .ok x, .ok y =>
      match decEq x y with
      | isTrue h => isTrue (by rw [h])
      | isFalse h => isFalse (by intro hc; cases hc; exact h rfl)
  | .error x, .error y =>
      match decEq x y with
      | isTrue h => isTrue (by rw [h])
      | isFalse h => isFalse (by intro hc; cases hc; exact h rfl)
  | .ok _, .error _ => isFalse (by intro hc; cases hc)
  | .error _, .ok _ => isFalse (by intro hc; cases hc)

/-- A Go slice view into the underlying buffer: start offset, length,
capacity.  For a slice of the original buffer, `start + cap` equals the
buffer length. -/
structure GoSlice where
  start : Nat
  len : Nat
  cap : Nat
  deriving Repr, DecidableEq

/-- The slice covering a whole buffer. -/
def fullSlice (d : Bytes) : GoSlice := ⟨0, d.length, d.length⟩

/-- Go re-slicing `s[lo:hi]`: panics unless `0 ≤ lo ≤ hi ≤ cap s`. -/
def reslice (s : GoSlice) (lo hi : Int) : Except GoPanic GoSlice :=
  if 0 ≤ lo ∧ lo ≤ hi ∧ hi ≤ (s.cap : Int) then
    .ok ⟨s.start + lo.toNat, (hi - lo).toNat, s.cap - lo.toNat⟩
  else
    .error .sliceBounds

/-- Go indexing `s[j]`: panics unless `0 ≤ j < len s`. -/
def sget (d : Bytes) (s : GoSlice) (j : Int) : Except GoPanic Nat :=
  if 0 ≤ j ∧ j < (s.len : Int) then .ok (byteAt d (s.start + j.toNat))
  else .error .indexBounds

/-- `binary.LittleEndian.Uint16` on a slice (panics when shorter than 2). -/
def sU16 (d : Bytes) (s : GoSlice) : Except GoPanic Nat := do
  let b0 ← sget d s 0
  let b1 ← sget d s 1
  return b0 + 256 * b1

/-- `binary.LittleEndian.Uint32` on a slice (panics when shorter than 4). -/
def sU32 (d : Bytes) (s : GoSlice) : Except GoPanic Nat := do
  let b0 ← sget d s 0
  let b1 ← sget d s 1
  let b2 ← sget d s 2
  let b3 ← sget d s 3
  return b0 + 256 * b1 + 65536 * b2 + 16777216 * b3

/-- `binary.LittleEndian.Uint64` on a slice (panics when shorter than 8). -/
def sU64 (d : Bytes) (s : GoSlice) : Except GoPanic Nat := do
  let b0 ← sget d s 0
  let b1 ← sget d s 1
  let b2 ← sget d s 2
  let b3 ← sget d s 3
  let b4 ← sget d s 4
  let b5 ← sget d s 5
  let b6 ← sget d s 6
  let b7 ← sget d s 7
  return b0 + 256 * b1 + 65536 * b2 + 16777216 * b3 +
    4294967296 * b4 + 1099511627776 * b5 + 281474976710656 * b6 +
    72057594037927936 * b7

/-- The bytes of a slice, as the Go conversion `string(s)` reads them. -/
def sliceBytes (d : Bytes) (s : GoSlice) : Except GoPanic (List Nat) :=
  (List.range s.len).mapM (fun (j : Nat) => sget d s (j : Int))

/-- The literal "EFI PART" as bytes. -/
def efiPartSig : List Nat := [69, 70, 73, 32, 80, 65, 82, 84]

/-- The literal "Unnamed" as character code points. -/
def unnamedStr : List Nat := [85, 110, 110, 97, 109, 101, 100]

/-- The payload of the `Info` string field of a report entry: one
constructor per `fmt.Sprintf` format used by the source, carrying the
numeric arguments. -/
inductive InfoStr where
  | empty
  | insufficientData
  | invalidSignature
  | gptDetected (revHi revLo numPartitions : Nat)
  | gptValid (revHi revLo : Nat)
  deriving Repr, DecidableEq

/-- The payload of the `Note` string field of a report entry. -/
inductive NoteStr where
  | empty
  | needHeader
  | corrupted
  | needBytes (requiredSize : Int)
  | noActive
  deriving Repr, DecidableEq

/-- The `PartitionInfo` struct of `wasm-ver.go`.  String fields holding
formatted numbers are carried as their numeric payloads; the decoded GPT
name is the list of appended character code points. -/
structure PartitionInfo where
  number : Int := 0
  status : String := ""
  typ : Option Nat := none
  startLBA : Nat := 0
  endLBA : Nat := 0
  sizeGB : ℚ := 0
  description : String := ""
  name : List Nat := []
  info : InfoStr := .empty
  note : NoteStr := .empty
  deriving Repr, DecidableEq

/-- The `AnalysisResult` struct of `wasm-ver.go`. -/
structure AnalysisResult where
  filename : String
  tableType : String
  partitions : List PartitionInfo
  error : Option String
  deriving Repr, DecidableEq

/-- `getMBRTypeDescription` of both source files. -/
def getMBRTypeDescription (partType : Nat) : String :=
  if partType = 0x00 then "Empty"
  else if partType = 0x01 then "FAT12"
  else if partType = 0x04 then "FAT16 <32M"
  else if partType = 0x05 then "Extended"
  else if partType = 0x06 then "FAT16"
  else if partType = 0x07 then "HPFS/NTFS/exFAT"
  else if partType = 0x0B then "W95 FAT32"
  else if partType = 0x0C then "W95 FAT32 (LBA)"
  else if partType = 0x0E then "W95 FAT16 (LBA)"
  else if partType = 0x0F then "W95 Ext\x27d (LBA)"
  else if partType = 0x11 then "Hidden FAT12"
  else if partType = 0x14 then "Hidden FAT16 <32M"
  else if partType = 0x16 then "Hidden FAT16"
  else if partType = 0x17 then "Hidden HPFS/NTFS"
  else if partType = 0x1B then "Hidden W95 FAT32"
  else if partType = 0x1C then "Hidden W95 FAT32 (LBA)"
  else if partType = 0x1E then "Hidden W95 FAT16 (LBA)"
  else if partType = 0x82 then "Linux swap"
  else if partType = 0x83 then "Linux"
  else if partType = 0x85 then "Linux extended"
  else if partType = 0x8E then "Linux LVM"
  else if partType = 0xA0 then "Hibernation"
  else if partType = 0xA5 then "FreeBSD"
  else if partType = 0xA6 then "OpenBSD"
  else if partType = 0xA8 then "Darwin UFS"
  else if partType = 0xA9 then "NetBSD"
  else if partType = 0xAB then "Darwin boot"
  else if partType = 0xAF then "HFS / HFS+"
  else if partType = 0xBE then "Solaris boot"
  else if partType = 0xBF then "Solaris"
  else if partType = 0xEB then "BeOS fs"
  else if partType = 0xEE then "GPT"
  else if partType = 0xEF then "EFI (FAT-12/16/32)"
  else if partType = 0xFB then "VMware VMFS"
  else if partType = 0xFC then "VMware VMKCORE"
  else if partType = 0xFD then "Linux raid autodetect"
  else "Unknown"

/-- One iteration of the `readMBRPartitions` loop of `wasm-ver.go`
(slot `i`, 0-based): returns the emitted record, or `none` for a slot
whose type byte is 0. -/
def mbrSlot (data : Bytes) (i : Nat) : Except GoPanic (Option PartitionInfo) := do
  let s := fullSlice data
  let offset := 446 + i * 16
  let status ← sget data s (offset : Int)
  let partType ← sget data s ((offset + 4 : Nat) : Int)
  let sl1 ← reslice s ((offset + 8 : Nat) : Int) ((offset + 12 : Nat) : Int)
  let startLBA ← sU32 data sl1
  let sl2 ← reslice s ((offset + 12 : Nat) : Int) ((offset + 16 : Nat) : Int)
  let sizeBlocks ← sU32 data sl2
  if partType ≠ 0 then
    let statusStr := if status = 0x80 then "Active" else "Inactive"
    let sizeGB : ℚ := mkRat (f64 (u32 (sizeBlocks * 512))) (1024 * 1024 * 1024)
    return some { number := (i : Int) + 1, status := statusStr,
                  typ := some partType, startLBA := startLBA,
                  sizeGB := sizeGB,
                  description := getMBRTypeDescription partType }
  else
    return none

/-- `readMBRPartitions` of `wasm-ver.go`: the four fixed slots in order,
unused ones contributing nothing. -/
def readMBRPartitions (data : Bytes) : Except GoPanic (List PartitionInfo) := do
  let slots ← (List.range 4).mapM (mbrSlot data)
  return slots.filterMap id

/-- The `allZero` loop of `readGPTPartitions` (both shells), scanning
the 16 type-GUID bytes of a partition entry: byte index `j` runs from 0
while `j < 16`; the structural counter `n` counts the iterations left
(`n = 16 - j` throughout, so the guard `j < 16` is `0 < n`). -/
def allZeroAux (data : Bytes) (pb : GoSlice) : Nat → Nat → Except GoPanic Bool
  | 0, _ => return true
  | n + 1, j => do
    let b ← sget data pb (j : Int)
    if b ≠ 0 then return false
    else allZeroAux data pb n (j + 1)

/-- The `allZero` loop entered at `j = 0`. -/
def allZeroCheck (data : Bytes) (pb : GoSlice) : Except GoPanic Bool :=
  allZeroAux data pb 16 0

/-- The name-decoding loop of `readGPTPartitions` in `wasm-ver.go`:
UTF-16LE code units from entry offset 56, stop at the first zero unit or
at the end of the entry, keep low bytes of printable-ASCII units.
`j` advances by 2 while `j < 56 + 72`; the structural counter `n` counts
iterations left (`j = 128 - 2*n` throughout, so `j < 128` is `0 < n`). -/
def decodeNameWasmAux (data : Bytes) (pb : GoSlice) :
    Nat → Nat → Except GoPanic (List Nat)
  | 0, _ => return []
  | n + 1, j =>
    if j + 1 < pb.len then do
      let lo ← sget data pb (j : Int)
      let hi ← sget data pb ((j + 1 : Nat) : Int)
      if lo = 0 ∧ hi = 0 then return []
      else
        let rest ← decodeNameWasmAux data pb n (j + 2)
        if hi = 0 ∧ 32 ≤ lo ∧ lo ≤ 126 then return lo :: rest
        else return rest
    else
      return []

/-- The wasm name loop entered at `j = 56` (36 iterations to `j = 128`). -/
def decodeNameWasm (data : Bytes) (pb : GoSlice) : Except GoPanic (List Nat) :=
  decodeNameWasmAux data pb 36 56

/-- The body of the entry loop of `readGPTPartitions` in `wasm-ver.go`:
given the entry's slice and the current `partCount`, the emitted record
(`none` when the type GUID is all zero). -/
def processEntry (data : Bytes) (pb : GoSlice) (partCount : Nat) :
    Except GoPanic (Option PartitionInfo) := do
  let allZero ← allZeroCheck data pb
  if allZero then
    return none
  else
    let sSl ← reslice pb 32 40
    let startLBA ← sU64 data sSl
    let eSl ← reslice pb 40 48
    let endLBA ← sU64 data eSl
    let name0 ← decodeNameWasm data pb
    let name := if name0 = [] then unnamedStr else name0
    let sizeGB : ℚ :=
      mkRat (f64 (u64 (u64 (u64 (endLBA + (18446744073709551616 - startLBA)) + 1) * 512)))
        (1024 * 1024 * 1024)
    return some { number := (partCount : Int) + 1, startLBA := startLBA,
                  endLBA := endLBA, sizeGB := sizeGB, name := name }

/-- The entry loop of `readGPTPartitions` in `wasm-ver.go`.  The loop
condition re-computes `partitionTableOffset + int(i*entrySize) +
int(entrySize) <= len(data)` in wrapping `int` arithmetic.  The
structural counter `n` counts iterations left (`n = num - i`
throughout, so the condition `i < num` is `0 < n`). -/
def gptLoopAux (data : Bytes) (s : GoSlice) (tOff : Int) (num esz : Nat) :
    Nat → Nat → Nat → Except GoPanic (List PartitionInfo)
  | 0, _, _ => return []
  | n + 1, i, partCount =>
    if i64 (i64 (tOff + (u32 (i * esz) : Int)) + (u32 esz : Int)) ≤
        (data.length : Int) then do
      let entryOffset : Int := i64 (tOff + (u32 (i * esz) : Int))
      let pb ← reslice s entryOffset (i64 (entryOffset + (u32 esz : Int)))
      let rec? ← processEntry data pb partCount
      match rec? with
      | none => gptLoopAux data s tOff num esz n (i + 1) partCount
      | some r => do
          let rest ← gptLoopAux data s tOff num esz n (i + 1) (partCount + 1)
          return r :: rest
    else
      return []

/-- The entry loop entered at `i = 0`, `partCount = 0`. -/
def gptLoop (data : Bytes) (s : GoSlice) (tOff : Int) (num esz : Nat) :
    Except GoPanic (List PartitionInfo) :=
  gptLoopAux data s tOff num esz num 0 0

/-- `readGPTPartitions` of `wasm-ver.go`. -/
def readGPTPartitions (data : Bytes) : Except GoPanic (List PartitionInfo) :=
  if data.length < 512 * 2 then
    .ok [{ number := 1, info := .insufficientData, note := .needHeader }]
  else do
    let s := fullSlice data
    let headerBytes ← reslice s 512 1024
    let sigSl ← reslice headerBytes 0 8
    let sigBytes ← sliceBytes data sigSl
    if sigBytes ≠ efiPartSig then
      return [{ number := 1, info := .invalidSignature, note := .corrupted }]
    else
      let revSl ← reslice headerBytes 8 12
      let revision ← sU32 data revSl
      let numSl ← reslice headerBytes 80 84
      let numPartitions ← sU32 data numSl
      let eszSl ← reslice headerBytes 84 88
      let partitionEntrySize ← sU32 data eszSl
      let lbaSl ← reslice headerBytes 72 80
      let partitionTableLBA ← sU64 data lbaSl
      let requiredSize : Int :=
        i64 (toInt64 (u64 (partitionTableLBA * 512)) +
          (u32 (numPartitions * partitionEntrySize) : Int))
      if (data.length : Int) < requiredSize then
        return [{ number := 1,
                  info := .gptDetected (revision / 65536) (revision % 65536)
                    numPartitions,
                  note := .needBytes requiredSize }]
      else
        let partitionTableOffset : Int := toInt64 (u64 (partitionTableLBA * 512))
        let parts ← gptLoop data s partitionTableOffset numPartitions
          partitionEntrySize
        if parts = [] then
          return [{ number := 1,
                    info := .gptValid (revision / 65536) (revision % 65536),
                    note := .noActive }]
        else
          return parts

/-! ## The command-line shell's GPT reader

The command-line source reads from a seekable file: the file is modelled
as the byte buffer, each `Read` into a fresh `partBytes` buffer copies
the next `entrySize` bytes (a short read or read error breaks the
loop), and the printed per-partition lines are collected as records. -/

/-- One printed partition line of the command-line shell:
partition counter, start LBA, end LBA, size in GB, decoded name. -/
structure CliPartitionLine where
  number : Nat
  startLBA : Nat
  endLBA : Nat
  sizeGB : ℚ
  name : List Nat
  deriving Repr, DecidableEq

/-- Indexing into a copied Go buffer (`len = cap`): panics out of range. -/
def lget (pb : List Nat) (j : Nat) : Except GoPanic Nat :=
  if h : j < pb.length then .ok (pb.get ⟨j, h⟩) else .error .indexBounds

/-- `binary.LittleEndian.Uint64(pb[lo:lo+8])` on a copied buffer:
the re-slice panics unless `lo + 8 ≤ cap = len`. -/
def cliU64 (pb : List Nat) (lo : Nat) : Except GoPanic Nat :=
  if lo + 8 ≤ pb.length then .ok (leBytes ((pb.drop lo).take 8))
  else .error .sliceBounds

/-- The `allZero` loop of the command-line `readGPTPartitions` (same
counter convention as `allZeroAux`). -/
def cliAllZeroAux (pb : List Nat) : Nat → Nat → Except GoPanic Bool
  | 0, _ => return true
  | n + 1, j => do
    let b ← lget pb j
    if b ≠ 0 then return false
    else cliAllZeroAux pb n (j + 1)

/-- The command-line `allZero` loop entered at `j = 0`. -/
def cliAllZero (pb : List Nat) : Except GoPanic Bool :=
  cliAllZeroAux pb 16 0

/-- The name-decoding loop of the command-line `readGPTPartitions`:
unlike the wasm shell it neither guards `j+1` against the entry length
nor restricts kept code units to printable ASCII.  Same counter
convention as `decodeNameWasmAux`. -/
def cliDecodeNameAux (pb : List Nat) : Nat → Nat → Except GoPanic (List Nat)
  | 0, _ => return []
  | n + 1, j => do
    let lo ← lget pb j
    let hi ← lget pb (j + 1)
    if lo = 0 ∧ hi = 0 then return []
    else
      let rest ← cliDecodeNameAux pb n (j + 2)
      if hi = 0 then return lo :: rest
      else return rest

/-- The command-line name loop entered at `j = 56`. -/
def cliDecodeName (pb : List Nat) : Except GoPanic (List Nat) :=
  cliDecodeNameAux pb 36 56

/-- The body of the entry loop of the command-line `readGPTPartitions`. -/
def cliProcessEntry (pb : List Nat) (partCount : Nat) :
    Except GoPanic (Option CliPartitionLine) := do
  let allZero ← cliAllZero pb
  if allZero then
    return none
  else
    let startLBA ← cliU64 pb 32
    let endLBA ← cliU64 pb 40
    let name0 ← cliDecodeName pb
    let name := if name0 = [] then unnamedStr else name0
    let sizeGB : ℚ :=
      mkRat (f64 (u64 (u64 (u64 (endLBA + (18446744073709551616 - startLBA)) + 1) * 512)))
        (1024 * 1024 * 1024)
    return some ⟨partCount + 1, startLBA, endLBA, sizeGB, name⟩

/-- The entry loop of the command-line `readGPTPartitions`: sequential
reads of `esz` bytes from position `pos`; a short read breaks the loop.
Structural counter `n` counts iterations left (`n = num - i`). -/
def cliLoopAux (file : Bytes) (num esz : Nat) :
    Nat → Nat → Nat → Except GoPanic (List CliPartitionLine)
  | 0, _, _ => return []
  | n + 1, pos, partCount =>
    if pos + esz ≤ file.length then do
      let pb := ((file.drop pos).take esz).map u8
      let rec? ← cliProcessEntry pb partCount
      match rec? with
      | none => cliLoopAux file num esz n (pos + esz) partCount
      | some r => do
          let rest ← cliLoopAux file num esz n (pos + esz) (partCount + 1)
          return r :: rest
    else
      return []

/-- The command-line entry loop entered at `i = 0`, `partCount = 0`. -/
def cliLoop (file : Bytes) (num esz pos : Nat) :
    Except GoPanic (List CliPartitionLine) :=
  cliLoopAux file num esz num pos 0

/-- `readGPTPartitions` of the command-line shell.  A failed header read
(file shorter than 1024 bytes) or a bad inner signature prints an error
and produces no partition lines.  The seek to the partition table uses
`int64(partitionTableLBA*512)`; a negative target makes the seek fail,
which the source ignores, leaving the position after the header. -/
def cli_readGPTPartitions (file : Bytes) : Except GoPanic (List CliPartitionLine) :=
  if file.length < 1024 then
    .ok []
  else
    let headerBytes := ((file.drop 512).take 512).map u8
    let numPartitions := leBytes ((headerBytes.drop 80).take 4)
    let partitionEntrySize := leBytes ((headerBytes.drop 84).take 4)
    let partitionTableLBA := leBytes ((headerBytes.drop 72).take 8)
    if headerBytes.take 8 ≠ efiPartSig then
      .ok []
    else
      let target := toInt64 (u64 (partitionTableLBA * 512))
      let pos := if 0 ≤ target then target.toNat else 1024
      cliLoop file numPartitions partitionEntrySize pos

/-- `analyzeDiskImage` of `wasm-ver.go`. -/
def analyzeDiskImage (data : Bytes) (filename : String) :
    Except GoPanic AnalysisResult :=
  if data.length < 512 then
    .ok ⟨filename, "", [], some "Data too small to contain MBR"⟩
  else do
    let s := fullSlice data
    let sigSl ← reslice s 510 512
    let signature ← sU16 data sigSl
    if signature ≠ 0xAA55 then
      return ⟨filename, "", [], some "Invalid MBR signature"⟩
    else do
      let firstPartType ← sget data s 450
      if firstPartType = 0xEE then do
        let parts ← readGPTPartitions data
        return ⟨filename, "GPT", parts, none⟩
      else do
        let parts ← readMBRPartitions data
        return ⟨filename, "MBR", parts, none⟩

/-! ## Named decodes of header and slot fields

Absolute-offset views of the fields the two readers decode, used to
state the claims.  The GPT header occupies bytes [512, 1024); its
revision is at header offset 8, the partition-table LBA at offset 72,
the partition count at offset 80 and the entry size at offset 84. -/

/-- GPT header revision (little-endian 32-bit at absolute offset 520). -/
def gptRevision (d : Bytes) : Nat := leN d 520 4

/-- GPT partition-table LBA (little-endian 64-bit at absolute offset 584). -/
def gptTableLBA (d : Bytes) : Nat := leN d 584 8

/-- GPT number of partition entries (little-endian 32-bit at offset 592). -/
def gptNumPartitions (d : Bytes) : Nat := leN d 592 4

/-- GPT partition entry size (little-endian 32-bit at offset 596). -/
def gptEntrySize (d : Bytes) : Nat := leN d 596 4

/-- The `requiredSize` computed by `readGPTPartitions` in `wasm-ver.go`:
`int(partitionTableLBA*512) + int(numPartitions*partitionEntrySize)`
in wrapping machine arithmetic. -/
def goRequiredSize (d : Bytes) : Int :=
  i64 (toInt64 (u64 (gptTableLBA d * 512)) +
    (u32 (gptNumPartitions d * gptEntrySize d) : Int))

/-- The type byte of MBR slot `i` (0-based), at offset `446 + 16*i + 4`. -/
def mbrTypeByte (d : Bytes) (i : Nat) : Nat := byteAt d (446 + i * 16 + 4)

/-- The status byte of MBR slot `i`. -/
def mbrStatusByte (d : Bytes) (i : Nat) : Nat := byteAt d (446 + i * 16)

/-- The start-LBA field of MBR slot `i`. -/
def mbrStartLBA (d : Bytes) (i : Nat) : Nat := leN d (446 + i * 16 + 8) 4

/-- The size-in-sectors field of MBR slot `i`. -/
def mbrSizeBlocks (d : Bytes) (i : Nat) : Nat := leN d (446 + i * 16 + 12) 4

/-- The copied bytes of GPT entry `i` as the command-line shell reads
them: `esz` bytes from absolute offset `off`. -/
def cliEntryBytes (d : Bytes) (off esz : Nat) : List Nat :=
  ((d.drop off).take esz).map u8

/-- The (number, startLBA, endLBA, sizeGB, name) tuple of a wasm-shell
record, in the command-line shell's record shape. -/
def projLine (r : PartitionInfo) : CliPartitionLine :=
  ⟨r.number.toNat, r.startLBA, r.endLBA, r.sizeGB, r.name⟩

/-- The partition tuples of a wasm-shell record list: advisory records
(recognised by a nonempty `info` payload) carry no partition tuple. -/
def wasmTuples (l : List PartitionInfo) : List CliPartitionLine :=
  (l.filter (fun r => r.info = InfoStr.empty)).map projLine

/-- A GPT entry name field in which every code unit with zero high byte
is either the NUL terminator or printable ASCII — the condition under
which the two shells' name decoders agree. -/
def nameOK (pb : List Nat) : Prop :=
  ∀ j, j < 128 → 56 ≤ j → j % 2 = 0 → pb.getD (j + 1) 0 = 0 →
    (pb.getD j 0 = 0 ∨ (32 ≤ pb.getD j 0 ∧ pb.getD j 0 ≤ 126))

instance (pb : List Nat) : Decidable (nameOK pb) := by
  unfold nameOK; infer_instance

/-- Overwrite a list of positions of a buffer (test-input builder). -/
def setAll (l : Bytes) (ps : List (Nat × Nat)) : Bytes :=
  ps.foldl (fun acc p => acc.set p.1 p.2) l

/-- A GPT-classified 1024-byte image whose header requests
`partitionTableLBA = 2^54`: `partitionTableLBA*512` overflows `int` to
`-2^63`, every length check passes, and the entry slice panics. -/
def hugeLBAbuf : Bytes := setAll (List.replicate 1024 0)
  [(450, 0xEE), (510, 0x55), (511, 0xAA),
   (512, 69), (513, 70), (514, 73), (515, 32), (516, 80), (517, 65),
   (518, 82), (519, 84),
   (590, 64), (592, 1), (596, 128)]

/-- A GPT-classified 1024-byte image whose header requests
`partitionTableLBA = 2^55` and one 128-byte entry: the true required
byte count is `2^64 + 128`, but the wrapped `requiredSize` is 128, so
the reader proceeds and decodes the protective MBR sector (whose first
byte is nonzero here) as a partition entry. -/
def overflowReqBuf : Bytes := setAll (List.replicate 1024 0)
  [(0, 1),
   (450, 0xEE), (510, 0x55), (511, 0xAA),
   (512, 69), (513, 70), (514, 73), (515, 32), (516, 80), (517, 65),
   (518, 82), (519, 84),
   (590, 128), (592, 1), (596, 128)]

/-- A valid 1152-byte GPT image (`partitionTableLBA = 2`, one 128-byte
entry) whose single entry has start LBA 34, end LBA 100, and a name
field holding the UTF-16LE units 0x0001 and 0x0041 ('A'): the wasm
shell drops the non-printable unit, the command-line shell keeps it. -/
def mixedNameBuf : Bytes := setAll (List.replicate 1152 0)
  [(450, 0xEE), (510, 0x55), (511, 0xAA),
   (512, 69), (513, 70), (514, 73), (515, 32), (516, 80), (517, 65),
   (518, 82), (519, 84),
   (522, 1), (584, 2), (592, 1), (596, 128),
   (1024, 1), (1056, 34), (1064, 100), (1080, 1), (1082, 65)]

/-- A valid 1152-byte GPT image whose single entry has start LBA 2 and
end LBA 1 (start greater than end), nonzero type GUID, empty name. -/
def startAfterEndBuf : Bytes := setAll (List.replicate 1152 0)
  [(450, 0xEE), (510, 0x55), (511, 0xAA),
   (512, 69), (513, 70), (514, 73), (515, 32), (516, 80), (517, 65),
   (518, 82), (519, 84),
   (584, 2), (592, 1), (596, 128),
   (1024, 1), (1056, 2), (1064, 1)]

/-- A 512-byte MBR sector whose slot 1 has type 0x83 and size-in-sectors
`2^23`: `sizeBlocks*512` overflows `uint32` to 0. -/
def bigSizeMBRbuf : Bytes := setAll (List.replicate 512 0)
  [(450, 0x83), (460, 0x80), (510, 0x55), (511, 0xAA)]

/-- A valid 1152-byte GPT image (`partitionTableLBA = 2`, one 128-byte
entry, revision 1.0) whose single entry is entirely zero. -/
def allZeroEntriesBuf : Bytes := setAll (List.replicate 1152 0)
  [(450, 0xEE), (510, 0x55), (511, 0xAA),
   (512, 69), (513, 70), (514, 73), (515, 32), (516, 80), (517, 65),
   (518, 82), (519, 84),
   (522, 1), (584, 2), (592, 1), (596, 128)]

/-- A GPT-classified 1024-byte image with a valid header requesting
`partitionTableLBA = 2`, one 128-byte entry (required size 1152 > 1024):
the truncation advisory path. -/
def truncatedGPTbuf : Bytes := setAll (List.replicate 1024 0)
  [(450, 0xEE), (510, 0x55), (511, 0xAA),
   (512, 69), (513, 70), (514, 73), (515, 32), (516, 80), (517, 65),
   (518, 82), (519, 84),
   (522, 1), (584, 2), (592, 1), (596, 128)]

/-- A 512-byte all-zero sector: its boot signature is 0, not 0xAA55. -/
def zeroSectorBuf : Bytes := List.replicate 512 0

/-! ## Helper lemmas -/

@[simp]
theorem except_bind_ok {ε α β : Type} (a : α) (f : α → Except ε β) :
    (Except.ok a : Except ε α) >>= f = f a := rfl

@[simp]
theorem except_bind_error {ε α β : Type} (e : ε) (f : α → Except ε β) :
    (Except.error e : Except ε α) >>= f = .error e := rfl

@[simp]
theorem except_pure_eq_ok {ε α : Type} (a : α) :
    (pure a : Except ε α) = .ok a := rfl

theorem sget_nat_ok (d : Bytes) (s : GoSlice) (j : Nat) (h : j < s.len) :
    sget d s (j : Int) = .ok (byteAt d (s.start + j)) := by
  unfold sget
  rw [if_pos]
  · simp
  · constructor
    · exact Int.natCast_nonneg j
    · exact_mod_cast h

theorem reslice_nat_ok (s : GoSlice) (lo hi : Nat) (h1 : lo ≤ hi)
    (h2 : hi ≤ s.cap) :
    reslice s (lo : Int) (hi : Int) = .ok ⟨s.start + lo, hi - lo, s.cap - lo⟩ := by
  unfold reslice
  rw [if_pos]
  · have e1 : ((lo : Int)).toNat = lo := Int.toNat_natCast lo
    have e2 : ((hi : Int) - (lo : Int)).toNat = hi - lo := by omega
    rw [e1, e2]
  · exact ⟨Int.natCast_nonneg lo, by exact_mod_cast h1, by exact_mod_cast h2⟩

theorem sU16_ok (d : Bytes) (s : GoSlice) (h : 2 ≤ s.len) :
    sU16 d s = .ok (leN d s.start 2) := by
  unfold sU16
  rw [show ((0 : Int)) = ((0 : Nat) : Int) by norm_num,
    show ((1 : Int)) = ((1 : Nat) : Int) by norm_num]
  rw [sget_nat_ok d s 0 (by omega), sget_nat_ok d s 1 (by omega)]
  simp [leN]
  try ring

theorem sU32_ok (d : Bytes) (s : GoSlice) (h : 4 ≤ s.len) :
    sU32 d s = .ok (leN d s.start 4) := by
  unfold sU32
  rw [show ((0 : Int)) = ((0 : Nat) : Int) by norm_num,
    show ((1 : Int)) = ((1 : Nat) : Int) by norm_num,
    show ((2 : Int)) = ((2 : Nat) : Int) by norm_num,
    show ((3 : Int)) = ((3 : Nat) : Int) by norm_num]
  rw [sget_nat_ok d s 0 (by omega), sget_nat_ok d s 1 (by omega),
    sget_nat_ok d s 2 (by omega), sget_nat_ok d s 3 (by omega)]
  simp [leN]
  try ring

theorem sU64_ok (d : Bytes) (s : GoSlice) (h : 8 ≤ s.len) :
    sU64 d s = .ok (leN d s.start 8) := by
  unfold sU64
  rw [show ((0 : Int)) = ((0 : Nat) : Int) by norm_num,
    show ((1 : Int)) = ((1 : Nat) : Int) by norm_num,
    show ((2 : Int)) = ((2 : Nat) : Int) by norm_num,
    show ((3 : Int)) = ((3 : Nat) : Int) by norm_num,
    show ((4 : Int)) = ((4 : Nat) : Int) by norm_num,
    show ((5 : Int)) = ((5 : Nat) : Int) by norm_num,
    show ((6 : Int)) = ((6 : Nat) : Int) by norm_num,
    show ((7 : Int)) = ((7 : Nat) : Int) by norm_num]
  rw [sget_nat_ok d s 0 (by omega), sget_nat_ok d s 1 (by omega),
    sget_nat_ok d s 2 (by omega), sget_nat_ok d s 3 (by omega),
    sget_nat_ok d s 4 (by omega), sget_nat_ok d s 5 (by omega),
    sget_nat_ok d s 6 (by omega), sget_nat_ok d s 7 (by omega)]
  simp [leN]
  try ring

/-- Characterization of one MBR slot read on a full sector. -/
theorem mbrSlot_eq (data : Bytes) (i : Nat) (hlen : 512 ≤ data.length)
    (hi : i < 4) :
    mbrSlot data i = .ok (if mbrTypeByte data i = 0 then none else some
      { number := (i : Int) + 1,
        status := if mbrStatusByte data i = 0x80 then "Active" else "Inactive",
        typ := some (mbrTypeByte data i),
        startLBA := mbrStartLBA data i,
        sizeGB := mkRat (f64 (u32 (mbrSizeBlocks data i * 512))) (1024 * 1024 * 1024),
        description := getMBRTypeDescription (mbrTypeByte data i) }) := by
  unfold mbrSlot
  simp only []
  rw [sget_nat_ok data _ (446 + i * 16) (by simp [fullSlice]; omega),
    sget_nat_ok data _ (446 + i * 16 + 4) (by simp [fullSlice]; omega),
    reslice_nat_ok _ (446 + i * 16 + 8) (446 + i * 16 + 12) (by omega)
      (by simp [fullSlice]; omega)]
  simp only [except_bind_ok]
  rw [sU32_ok data _ (by show 4 ≤ 446 + i * 16 + 12 - (446 + i * 16 + 8); omega)]
  simp only [except_bind_ok]
  rw [reslice_nat_ok _ (446 + i * 16 + 12) (446 + i * 16 + 16) (by omega)
    (by simp [fullSlice]; omega)]
  simp only [except_bind_ok]
  rw [sU32_ok data _ (by show 4 ≤ 446 + i * 16 + 16 - (446 + i * 16 + 12); omega)]
  simp only [except_bind_ok, fullSlice, Nat.zero_add]
  simp only [mbrTypeByte, mbrStatusByte, mbrStartLBA, mbrSizeBlocks]
  by_cases h : byteAt data (446 + i * 16 + 4) = 0
  · rw [if_neg (not_not_intro h), if_pos h]
    rfl
  · rw [if_pos h, if_neg h]
    rfl

theorem f64_small {n : Nat} (h : n ≤ 9007199254740992) : f64 n = n :=
  if_pos h

theorem mkRat_nat_div (a b : Nat) : mkRat a b = (a : ℚ) / (b : ℚ) := by
  rw [Rat.mkRat_eq_divInt, Rat.divInt_eq_div]
  norm_num

/-- Claim C8: an MBR slot with type byte 0 yields no record, and every
emitted MBR record carries the 1-based raw slot index `i + 1`, so
skipped slots leave gaps in the numbering. -/
theorem mbr_zero_type_skipped_and_raw_index (data : Bytes) (i : Nat)
    (hlen : 512 ≤ data.length) (hi : i < 4) :
    (mbrTypeByte data i = 0 → mbrSlot data i = .ok none) ∧
    (∀ r, mbrSlot data i = .ok (some r) → r.number = (i : Int) + 1) := by
  constructor
  · intro h
    rw [mbrSlot_eq data i hlen hi, if_pos h]
  · intro r hr
    rw [mbrSlot_eq data i hlen hi] at hr
    by_cases h : mbrTypeByte data i = 0
    · rw [if_pos h] at hr
      simp at hr
    · rw [if_neg h] at hr
      simp only [Except.ok.injEq, Option.some.injEq] at hr
      rw [← hr]

/-- Witness for C8 at a concrete sector: slot 2 (type byte 0) yields no
record; the record of slot 1 (type 0x83) carries number 1. -/
theorem mbr_zero_type_skipped_and_raw_index_witness :
    mbrSlot bigSizeMBRbuf 1 = .ok none ∧
    (512 ≤ bigSizeMBRbuf.length ∧ mbrTypeByte bigSizeMBRbuf 1 = 0) :=
  ⟨(mbr_zero_type_skipped_and_raw_index bigSizeMBRbuf 1 (by decide)
      (by decide)).1 (by decide),
   by decide, by decide⟩

/-- Claim C3 counterexample: a slot with type 0x83 and size-in-sectors
`2^23 = 8388608` is emitted with size 0 GB, because `sizeBlocks*512`
is computed in `uint32` and wraps to 0 — while the claimed formula
`sizeInSectors * 512 / 1024^3` gives 4 GB. -/
theorem mbr_sizeGB_overflow_cex :
    mbrSizeBlocks bigSizeMBRbuf 0 = 8388608 ∧
    readMBRPartitions bigSizeMBRbuf =
      .ok [{ number := 1, status := "Inactive", typ := some 0x83,
             startLBA := 0, sizeGB := 0, description := "Linux" }] ∧
    (8388608 * 512 : ℚ) / (1024 * 1024 * 1024) = 4 ∧ (0 : ℚ) ≠ 4 :=
  ⟨by decide, by decide, by norm_num, by norm_num⟩

/-- Claim C3 (amended): the emitted size in GB is
`uint32(sizeInSectors * 512) / 1024^3` — exactly the claimed value for
all `sizeInSectors < 2^23`, and the `uint32`-wrapped value beyond. -/
theorem mbr_sizeGB_value (data : Bytes) (i : Nat) (hlen : 512 ≤ data.length)
    (hi : i < 4) (r : PartitionInfo) (hr : mbrSlot data i = .ok (some r)) :
    r.sizeGB = (u32 (mbrSizeBlocks data i * 512) : ℚ) / (1024 * 1024 * 1024) ∧
    (mbrSizeBlocks data i < 8388608 →
      r.sizeGB = (mbrSizeBlocks data i * 512 : ℚ) / (1024 * 1024 * 1024)) := by
  rw [mbrSlot_eq data i hlen hi] at hr
  by_cases h : mbrTypeByte data i = 0
  · rw [if_pos h] at hr
    simp at hr
  · rw [if_neg h] at hr
    simp only [Except.ok.injEq, Option.some.injEq] at hr
    have hsz : r.sizeGB =
        mkRat (f64 (u32 (mbrSizeBlocks data i * 512))) (1024 * 1024 * 1024) := by
      rw [← hr]
    have hsmall : u32 (mbrSizeBlocks data i * 512) ≤ 9007199254740992 := by
      have := Nat.mod_lt (mbrSizeBlocks data i * 512)
        (show 0 < 4294967296 by norm_num)
      unfold u32
      omega
    constructor
    · rw [hsz, f64_small hsmall, mkRat_nat_div]
      norm_num
    · intro hlt
      have hnowrap : u32 (mbrSizeBlocks data i * 512) =
          mbrSizeBlocks data i * 512 := by
        unfold u32
        apply Nat.mod_eq_of_lt
        omega
      rw [hsz, f64_small hsmall, hnowrap, mkRat_nat_div]
      norm_num

/-- Witness for C3 (amended) at a concrete sector: the slot-1 record of
the test image (type 0x83, `sizeBlocks = 2^23`) has the wrapped size 0. -/
theorem mbr_sizeGB_value_witness :
    (⟨1, "Inactive", some 0x83, 0, 0, 0, "Linux", [], .empty, .empty⟩ :
      PartitionInfo).sizeGB =
      (u32 (mbrSizeBlocks bigSizeMBRbuf 0 * 512) : ℚ) / (1024 * 1024 * 1024) :=
  (mbr_sizeGB_value bigSizeMBRbuf 0 (by decide) (by decide)
    ⟨1, "Inactive", some 0x83, 0, 0, 0, "Linux", [], .empty, .empty⟩
    (by decide)).1

/-- Characterization of `analyzeDiskImage` on a buffer of at least one
sector: the signature test, then the detector byte at offset 450. -/
theorem analyzeDiskImage_eq (data : Bytes) (fn : String)
    (hlen : 512 ≤ data.length) :
    analyzeDiskImage data fn =
      (if leN data 510 2 ≠ 0xAA55 then
        .ok ⟨fn, "", [], some "Invalid MBR signature"⟩
      else if byteAt data 450 = 0xEE then
        (readGPTPartitions data) >>= (fun parts => .ok ⟨fn, "GPT", parts, none⟩)
      else
        (readMBRPartitions data) >>= (fun parts => .ok ⟨fn, "MBR", parts, none⟩)) := by
  unfold analyzeDiskImage
  rw [if_neg (by omega)]
  simp only []
  rw [show (510 : Int) = ((510 : Nat) : Int) by norm_num,
    show (512 : Int) = ((512 : Nat) : Int) by norm_num]
  rw [reslice_nat_ok _ 510 512 (by omega) (by simp [fullSlice]; omega)]
  simp only [except_bind_ok]
  rw [sU16_ok data _ (by show 2 ≤ 512 - 510; omega)]
  simp only [except_bind_ok, fullSlice, Nat.zero_add]
  by_cases hsig : leN data 510 2 = 0xAA55
  · rw [if_neg (not_not_intro hsig), if_neg (not_not_intro hsig)]
    rw [show (450 : Int) = ((450 : Nat) : Int) by norm_num]
    rw [sget_nat_ok data _ 450 (by simp [fullSlice]; omega)]
    simp only [except_bind_ok, fullSlice, Nat.zero_add]
    by_cases hd : byteAt data 450 = 0xEE
    · rw [if_pos hd, if_pos hd]
      rfl
    · rw [if_neg hd, if_neg hd]
      rfl
  · rw [if_pos hsig, if_pos hsig]
    rfl

/-- Claim C2: on a buffer of at least 512 bytes with valid 0xAA55 boot
signature, any produced result is classified GPT exactly when byte 450
is 0xEE and MBR otherwise, with no top-level error; an invalid signature
aborts with the hard error and an empty partition list. -/
theorem detector_classification (data : Bytes) (fn : String)
    (hlen : 512 ≤ data.length) :
    (leN data 510 2 = 0xAA55 →
      ∀ res, analyzeDiskImage data fn = .ok res →
        (res.tableType = "GPT" ↔ byteAt data 450 = 0xEE) ∧
        (res.tableType = "GPT" ∨ res.tableType = "MBR") ∧
        res.error = none) ∧
    (leN data 510 2 ≠ 0xAA55 →
      analyzeDiskImage data fn =
        .ok ⟨fn, "", [], some "Invalid MBR signature"⟩) := by
  rw [analyzeDiskImage_eq data fn hlen]
  constructor
  · intro hsig res hres
    rw [if_neg (not_not_intro hsig)] at hres
    by_cases hd : byteAt data 450 = 0xEE
    · rw [if_pos hd] at hres
      cases hg : readGPTPartitions data with
      | error e => rw [hg] at hres; simp at hres
      | ok parts =>
        rw [hg] at hres
        simp only [except_bind_ok, Except.ok.injEq] at hres
        rw [← hres]
        exact ⟨by simp [hd], Or.inl rfl, rfl⟩
    · rw [if_neg hd] at hres
      cases hg : readMBRPartitions data with
      | error e => rw [hg] at hres; simp at hres
      | ok parts =>
        rw [hg] at hres
        simp only [except_bind_ok, Except.ok.injEq] at hres
        rw [← hres]
        refine ⟨?_, Or.inr rfl, rfl⟩
        constructor
        · intro hMG
          simp at hMG
        · intro hEE
          exact absurd hEE hd
  · intro hsig
    rw [if_pos hsig]

/-- Witness for C2 at a concrete input: the all-zero sector has an
invalid boot signature and aborts with the hard error. -/
theorem detector_classification_witness :
    analyzeDiskImage zeroSectorBuf "d" =
      .ok ⟨"d", "", [], some "Invalid MBR signature"⟩ :=
  (detector_classification zeroSectorBuf "d" (by decide)).2 (by decide)

/-- Claim C10: whenever a produced result has its top-level error field
set, the table type is the empty string and the partition list is
empty — a hard failure carries no partial partition data. -/
theorem hard_error_leaves_empty_report (data : Bytes) (fn : String)
    (res : AnalysisResult) (hres : analyzeDiskImage data fn = .ok res)
    (herr : res.error.isSome) :
    res.tableType = "" ∧ res.partitions = [] := by
  by_cases hlen : data.length < 512
  · unfold analyzeDiskImage at hres
    rw [if_pos hlen] at hres
    simp only [Except.ok.injEq] at hres
    rw [← hres]
    exact ⟨rfl, rfl⟩
  · rw [analyzeDiskImage_eq data fn (by omega)] at hres
    by_cases hsig : leN data 510 2 = 0xAA55
    · rw [if_neg (not_not_intro hsig)] at hres
      by_cases hd : byteAt data 450 = 0xEE
      · rw [if_pos hd] at hres
        cases hg : readGPTPartitions data with
        | error e => rw [hg] at hres; simp at hres
        | ok parts =>
          rw [hg] at hres
          simp only [except_bind_ok, Except.ok.injEq] at hres
          rw [← hres] at herr
          simp at herr
      · rw [if_neg hd] at hres
        cases hg : readMBRPartitions data with
        | error e => rw [hg] at hres; simp at hres
        | ok parts =>
          rw [hg] at hres
          simp only [except_bind_ok, Except.ok.injEq] at hres
          rw [← hres] at herr
          simp at herr
    · rw [if_pos hsig] at hres
      simp only [Except.ok.injEq] at hres
      rw [← hres]
      exact ⟨rfl, rfl⟩

/-- Witness for C10 at a concrete input: the empty buffer aborts with
the too-small hard error and an empty report. -/
theorem hard_error_leaves_empty_report_witness :
    (⟨"e", "", [], some "Data too small to contain MBR"⟩ :
      AnalysisResult).tableType = "" ∧
    (⟨"e", "", [], some "Data too small to contain MBR"⟩ :
      AnalysisResult).partitions = [] :=
  hard_error_leaves_empty_report ([] : Bytes) "e"
    ⟨"e", "", [], some "Data too small to contain MBR"⟩ (by decide) (by decide)

/-- Claim C1 (code bug): for `partitionTableLBA = 2^54` the computation
`int(partitionTableLBA*512)` overflows to `-2^63`, every length check
passes, and the entry slice expression fails its bounds check — the
reader attempts an out-of-buffer access (a runtime panic) instead of
emitting an AdvisoryRecord. -/
theorem gpt_reader_bounds_panic :
    readGPTPartitions hugeLBAbuf = .error .sliceBounds ∧
    gptTableLBA hugeLBAbuf = 18014398509481984 ∧
    hugeLBAbuf.length = 1024 := by
  refine ⟨by decide, by decide, by decide⟩

theorem allZeroAux_true (data : Bytes) (pb : GoSlice) (h16 : 16 ≤ pb.len)
    (hz : ∀ k, k < 16 → byteAt data (pb.start + k) = 0) :
    ∀ n j, j + n = 16 → allZeroAux data pb n j = .ok true := by
  intro n
  induction n with
  | zero => intro j hj; rfl
  | succ m ih =>
    intro j hj
    unfold allZeroAux
    rw [sget_nat_ok data pb j (by omega)]
    simp only [except_bind_ok]
    rw [hz j (by omega)]
    rw [if_neg (by simp)]
    exact ih (j + 1) (by omega)

/-- Claim C7: a GPT partition entry whose 16 type-GUID bytes are all
zero contributes no record, regardless of every other field of the
entry. -/
theorem gpt_all_zero_guid_skipped (data : Bytes) (pb : GoSlice)
    (partCount : Nat) (h16 : 16 ≤ pb.len)
    (hz : ∀ k, k < 16 → byteAt data (pb.start + k) = 0) :
    processEntry data pb partCount = .ok none := by
  unfold processEntry allZeroCheck
  rw [allZeroAux_true data pb h16 hz 16 0 rfl]
  simp

/-- Witness for C7: the all-zero entry of the test image is skipped. -/
theorem gpt_all_zero_guid_skipped_witness :
    processEntry allZeroEntriesBuf ⟨1024, 128, 128⟩ 0 = .ok none :=
  gpt_all_zero_guid_skipped allZeroEntriesBuf ⟨1024, 128, 128⟩ 0
    (by decide) (by decide)

theorem mapM_ok {α β : Type} (l : List α) (f : α → Except GoPanic β)
    (g : α → β) (h : ∀ x ∈ l, f x = .ok (g x)) :
    l.mapM f = .ok (l.map g) := by
  induction l with
  | nil => rfl
  | cons a t ih =>
    rw [List.mapM_cons, h a (by simp)]
    rw [ih (fun x hx => h x (by simp [hx]))]
    rfl

theorem sliceBytes_ok (d : Bytes) (s : GoSlice) :
    sliceBytes d s =
      .ok ((List.range s.len).map (fun j => byteAt d (s.start + j))) := by
  unfold sliceBytes
  exact mapM_ok _ _ _ (fun j hj =>
    sget_nat_ok d s j (List.mem_range.mp hj))

theorem take_drop_map_u8 (d : Bytes) (a n : Nat) (h : a + n ≤ d.length) :
    ((d.drop a).take n).map u8 =
      (List.range n).map (fun j => byteAt d (a + j)) := by
  apply List.ext_getElem
  · simp only [List.length_map, List.length_take, List.length_drop,
      List.length_range]
    omega
  · intro i h1 h2
    simp only [List.length_map, List.length_take, List.length_drop,
      List.length_range] at h1 h2
    simp only [List.getElem_map, List.getElem_take, List.getElem_drop,
      List.getElem_range]
    rw [byteAt, List.getD_eq_getElem d 0 (by omega)]

theorem reslice_lit_ok (st ln cp : Nat) (lo hi : Nat) (h1 : lo ≤ hi)
    (h2 : hi ≤ cp) :
    reslice ⟨st, ln, cp⟩ (lo : Int) (hi : Int) = .ok ⟨st + lo, hi - lo, cp - lo⟩ :=
  reslice_nat_ok ⟨st, ln, cp⟩ lo hi h1 h2

theorem sU16_lit_ok (d : Bytes) (st ln cp : Nat) (h : 2 ≤ ln) :
    sU16 d ⟨st, ln, cp⟩ = .ok (leN d st 2) :=
  sU16_ok d ⟨st, ln, cp⟩ h

theorem sU32_lit_ok (d : Bytes) (st ln cp : Nat) (h : 4 ≤ ln) :
    sU32 d ⟨st, ln, cp⟩ = .ok (leN d st 4) :=
  sU32_ok d ⟨st, ln, cp⟩ h

theorem sU64_lit_ok (d : Bytes) (st ln cp : Nat) (h : 8 ≤ ln) :
    sU64 d ⟨st, ln, cp⟩ = .ok (leN d st 8) :=
  sU64_ok d ⟨st, ln, cp⟩ h

/-- Characterization of `readGPTPartitions` past the header phase, for a
buffer holding a full header sector with valid inner signature. -/
theorem readGPT_eq (data : Bytes) (hlen : 1024 ≤ data.length)
    (hsig : ((data.drop 512).take 8).map u8 = efiPartSig) :
    readGPTPartitions data =
      (if (data.length : Int) < goRequiredSize data then
        .ok [{ number := 1,
               info := .gptDetected (gptRevision data / 65536)
                 (gptRevision data % 65536) (gptNumPartitions data),
               note := .needBytes (goRequiredSize data) }]
      else
        (gptLoop data (fullSlice data)
            (toInt64 (u64 (gptTableLBA data * 512)))
            (gptNumPartitions data) (gptEntrySize data)) >>= fun parts =>
          if parts = [] then
            .ok [{ number := 1,
                   info := .gptValid (gptRevision data / 65536)
                     (gptRevision data % 65536),
                   note := .noActive }]
          else .ok parts) := by
  rw [take_drop_map_u8 data 512 8 (by omega)] at hsig
  unfold readGPTPartitions
  rw [if_neg (by omega)]
  simp only [fullSlice]
  rw [show (512 : Int) = ((512 : Nat) : Int) by norm_num,
    show (1024 : Int) = ((1024 : Nat) : Int) by norm_num,
    show (0 : Int) = ((0 : Nat) : Int) by norm_num,
    show (8 : Int) = ((8 : Nat) : Int) by norm_num,
    show (12 : Int) = ((12 : Nat) : Int) by norm_num,
    show (72 : Int) = ((72 : Nat) : Int) by norm_num,
    show (80 : Int) = ((80 : Nat) : Int) by norm_num,
    show (84 : Int) = ((84 : Nat) : Int) by norm_num,
    show (88 : Int) = ((88 : Nat) : Int) by norm_num]
  rw [reslice_lit_ok 0 data.length data.length 512 1024 (by omega) (by omega)]
  simp only [except_bind_ok]
  rw [reslice_lit_ok _ _ _ 0 8 (by omega) (by omega)]
  simp only [except_bind_ok]
  rw [sliceBytes_ok]
  simp only [except_bind_ok]
  rw [if_neg (not_not_intro (by
    convert hsig using 2))]
  rw [reslice_lit_ok _ _ _ 8 12 (by omega) (by omega)]
  simp only [except_bind_ok]
  rw [sU32_lit_ok data _ _ _ (by omega)]
  simp only [except_bind_ok]
  rw [reslice_lit_ok _ _ _ 80 84 (by omega) (by omega)]
  simp only [except_bind_ok]
  rw [sU32_lit_ok data _ _ _ (by omega)]
  simp only [except_bind_ok]
  rw [reslice_lit_ok _ _ _ 84 88 (by omega) (by omega)]
  simp only [except_bind_ok]
  rw [sU32_lit_ok data _ _ _ (by omega)]
  simp only [except_bind_ok]
  rw [reslice_lit_ok _ _ _ 72 80 (by omega) (by omega)]
  simp only [except_bind_ok]
  rw [sU64_lit_ok data _ _ _ (by omega)]
  simp only [except_bind_ok]
  norm_num [gptRevision, gptNumPartitions, gptEntrySize, gptTableLBA,
    goRequiredSize]

/-- Claim C6 counterexample: with `partitionTableLBA = 2^55` the true
required byte count `2^64 + 128` exceeds the 1024-byte buffer, but the
wrapped `requiredSize` is 128, so instead of one advisory and no
partition record the reader emits a partition record (decoded from the
protective MBR sector at offset 0) and no advisory. -/
theorem gpt_truncation_advisory_cex :
    overflowReqBuf.length = 1024 ∧
    1024 < gptTableLBA overflowReqBuf * 512 +
      gptNumPartitions overflowReqBuf * gptEntrySize overflowReqBuf ∧
    readGPTPartitions overflowReqBuf =
      .ok [{ number := 1, startLBA := 0, endLBA := 0,
             sizeGB := mkRat 512 1073741824, name := unnamedStr }] :=
  ⟨by decide, by decide, by decide⟩

/-- Claim C6 (amended): for a GPT-classified buffer with valid inner
signature whose length is below the `requiredSize` that the code
computes — `int(partitionTableLBA*512) + int(numPartitions*entrySize)`
in wrapping machine arithmetic, which equals the claimed
`partitionTableLBA*512 + numPartitions*entrySize` whenever that value
does not overflow — the reader emits exactly one AdvisoryRecord whose
note carries that computed byte count, and no partition record. -/
theorem gpt_truncation_advisory (data : Bytes) (hlen : 1024 ≤ data.length)
    (hsig : ((data.drop 512).take 8).map u8 = efiPartSig)
    (hshort : (data.length : Int) < goRequiredSize data) :
    readGPTPartitions data =
      .ok [{ number := 1,
             info := .gptDetected (gptRevision data / 65536)
               (gptRevision data % 65536) (gptNumPartitions data),
             note := .needBytes (goRequiredSize data) }] := by
  rw [readGPT_eq data hlen hsig, if_pos hshort]

/-- Witness for C6 (amended) at a concrete truncated image: 1024 bytes
available, 1152 required, one advisory carrying 1152. -/
theorem gpt_truncation_advisory_witness :
    readGPTPartitions truncatedGPTbuf =
      .ok [{ number := 1, info := .gptDetected 1 0 1,
             note := .needBytes 1152 }] := by
  rw [gpt_truncation_advisory truncatedGPTbuf (by decide) (by decide)
    (by decide)]
  decide

theorem u64_id {n : Nat} (h : n < 18446744073709551616) : u64 n = n :=
  Nat.mod_eq_of_lt h

theorem u32_id {n : Nat} (h : n < 4294967296) : u32 n = n :=
  Nat.mod_eq_of_lt h

theorem toInt64_id {n : Nat} (h : n < 9223372036854775808) :
    toInt64 n = n := by
  unfold toInt64
  rw [Nat.mod_eq_of_lt (by omega)]
  rw [if_pos h]

theorem i64_id {z : Int} (h1 : -9223372036854775808 ≤ z)
    (h2 : z < 9223372036854775808) : i64 z = z := by
  unfold i64
  omega

theorem leN_lt (d : Bytes) : ∀ (k : Nat) (off : Nat), leN d off k < 256 ^ k := by
  intro k
  induction k with
  | zero => intro off; simp [leN]
  | succ m ih =>
    intro off
    have hb : byteAt d off < 256 := Nat.mod_lt _ (by norm_num)
    have := ih (off + 1)
    simp only [leN]
    calc byteAt d off + 256 * leN d (off + 1) m
        ≤ 255 + 256 * (256 ^ m - 1) := by
          have := ih (off + 1)
          omega
      _ < 256 ^ (m + 1) := by
          rw [pow_succ]
          have : 1 ≤ 256 ^ m := Nat.one_le_pow m 256 (by norm_num)
          omega

/-- The GPT entry loop on a buffer large enough for all entries whose
type GUIDs are entirely zero produces no record. -/
theorem gptLoopAux_all_zero (data : Bytes) (tOff num esz : Nat)
    (hesz : 16 ≤ esz) (hesz32 : esz < 4294967296)
    (hprod : num * esz < 4294967296)
    (hfit : tOff + num * esz ≤ data.length)
    (hlen63 : data.length < 9223372036854775808)
    (hz : ∀ i, i < num → ∀ k, k < 16 →
      byteAt data (tOff + i * esz + k) = 0) :
    ∀ n i pc, i + n = num →
      gptLoopAux data (fullSlice data) ((tOff : Nat) : Int) num esz n i pc =
        .ok [] := by
  intro n
  induction n with
  | zero => intro i pc hi; rfl
  | succ m ih =>
    intro i pc hi
    have hiu : i < num := by omega
    have hmul : i * esz + esz ≤ num * esz := by
      calc i * esz + esz = (i + 1) * esz := by ring
        _ ≤ num * esz := Nat.mul_le_mul_right esz (by omega)
    have hb : tOff + i * esz + esz ≤ data.length := by omega
    have e1 : i64 (((tOff : Nat) : Int) + ((i * esz : Nat) : Int)) =
        ((tOff + i * esz : Nat) : Int) := by
      rw [← Nat.cast_add]
      exact i64_id (by omega) (by omega)
    have e2 : i64 (((tOff + i * esz : Nat) : Int) + ((esz : Nat) : Int)) =
        ((tOff + i * esz + esz : Nat) : Int) := by
      rw [← Nat.cast_add]
      exact i64_id (by omega) (by omega)
    unfold gptLoopAux
    rw [u32_id (by omega), u32_id hesz32]
    rw [e1, e2]
    rw [if_pos (by exact_mod_cast hb)]
    simp only [fullSlice]
    rw [e2]
    rw [reslice_lit_ok 0 data.length data.length (tOff + i * esz)
      (tOff + i * esz + esz) (by omega) (by omega)]
    simp only [except_bind_ok]
    rw [gpt_all_zero_guid_skipped data _ pc (by show 16 ≤ tOff + i * esz + esz - (tOff + i * esz); omega)
      (fun k hk => by
        rw [show 0 + (tOff + i * esz) + k = tOff + i * esz + k by omega]
        exact hz i hiu k hk)]
    simp only [except_bind_ok]
    exact ih (i + 1) pc (by omega)

/-- Claim C9: a structurally valid GPT header with enough data for the
whole entry array, all of whose entries have all-zero type GUIDs,
produces exactly one AdvisoryRecord stating that no active partitions
were found and carrying the header revision — not an empty list and not
an error. -/
theorem gpt_no_partitions_advisory (data : Bytes)
    (hlen : 1024 ≤ data.length)
    (hlen63 : data.length < 9223372036854775808)
    (hsig : ((data.drop 512).take 8).map u8 = efiPartSig)
    (hesz : 16 ≤ gptEntrySize data)
    (hprod : gptNumPartitions data * gptEntrySize data < 4294967296)
    (hfit : gptTableLBA data * 512 + gptNumPartitions data * gptEntrySize data
      ≤ data.length)
    (hz : ∀ i, i < gptNumPartitions data → ∀ k, k < 16 →
      byteAt data (gptTableLBA data * 512 + i * gptEntrySize data + k) = 0) :
    readGPTPartitions data =
      .ok [{ number := 1,
             info := .gptValid (gptRevision data / 65536)
               (gptRevision data % 65536),
             note := .noActive }] := by
  have hreq : goRequiredSize data =
      ((gptTableLBA data * 512 + gptNumPartitions data * gptEntrySize data :
        Nat) : Int) := by
    unfold goRequiredSize
    rw [u64_id (by omega), toInt64_id (by omega), u32_id hprod,
      ← Nat.cast_add]
    exact i64_id (by omega) (by omega)
  rw [readGPT_eq data hlen hsig]
  rw [hreq, if_neg (by exact_mod_cast Nat.not_lt.mpr hfit)]
  have htoff : toInt64 (u64 (gptTableLBA data * 512)) =
      ((gptTableLBA data * 512 : Nat) : Int) := by
    rw [u64_id (by omega), toInt64_id (by omega)]
  rw [htoff]
  unfold gptLoop
  rw [gptLoopAux_all_zero data (gptTableLBA data * 512)
    (gptNumPartitions data) (gptEntrySize data) hesz
    (by have := leN_lt data 4 596; unfold gptEntrySize; omega) hprod hfit
    hlen63 hz (gptNumPartitions data) 0 0 (by omega)]
  simp

/-- Witness for C9 at a concrete image whose single entry is all
zeros: one advisory, revision 1.0. -/
theorem gpt_no_partitions_advisory_witness :
    readGPTPartitions allZeroEntriesBuf =
      .ok [{ number := 1, info := .gptValid 1 0, note := .noActive }] := by
  rw [gpt_no_partitions_advisory allZeroEntriesBuf (by decide) (by decide)
    (by decide) (by decide) (by decide) (by decide) (by decide)]
  decide

theorem decodeNameWasmAux_ok (data : Bytes) (pb : GoSlice) :
    ∀ n j, ∃ nm, decodeNameWasmAux data pb n j = .ok nm := by
  intro n
  induction n with
  | zero => intro j; exact ⟨[], rfl⟩
  | succ m ih =>
    intro j
    unfold decodeNameWasmAux
    by_cases hj : j + 1 < pb.len
    · rw [if_pos hj]
      rw [sget_nat_ok data pb j (by omega),
        sget_nat_ok data pb (j + 1) (by omega)]
      simp only [except_bind_ok]
      by_cases hterm : byteAt data (pb.start + j) = 0 ∧
          byteAt data (pb.start + (j + 1)) = 0
      · rw [if_pos hterm]
        exact ⟨[], rfl⟩
      · rw [if_neg hterm]
        obtain ⟨nm, hnm⟩ := ih (j + 2)
        rw [hnm]
        simp only [except_bind_ok]
        by_cases hkeep : byteAt data (pb.start + (j + 1)) = 0 ∧
            32 ≤ byteAt data (pb.start + j) ∧ byteAt data (pb.start + j) ≤ 126
        · rw [if_pos hkeep]
          exact ⟨_, rfl⟩
        · rw [if_neg hkeep]
          exact ⟨nm, rfl⟩
    · rw [if_neg hj]
      exact ⟨[], rfl⟩

/-- Claim C4 counterexample: a valid GPT image whose single entry
(nonzero type GUID) encodes start LBA 2 and end LBA 1 is emitted
verbatim, with start LBA greater than end LBA. -/
theorem gpt_record_order_cex :
    readGPTPartitions startAfterEndBuf =
      .ok [{ number := 1, startLBA := 2, endLBA := 1, sizeGB := 0,
             name := unnamedStr }] ∧ (1 : Nat) < 2 :=
  ⟨by decide, by decide⟩

/-- Claim C4 (amended): the start and end LBA fields of every emitted
GPT record are the little-endian 64-bit values at entry offsets 32 and
40, taken verbatim: the reader enforces no ordering between them, so
start ≤ end holds only when the input bytes happen to satisfy it. -/
theorem gpt_record_lba_verbatim (data : Bytes) (pb : GoSlice) (pc : Nat)
    (r : PartitionInfo) (h : processEntry data pb pc = .ok (some r)) :
    r.startLBA = leN data (pb.start + 32) 8 ∧
    r.endLBA = leN data (pb.start + 40) 8 := by
  unfold processEntry at h
  cases haz : allZeroCheck data pb with
  | error e => rw [haz] at h; simp at h
  | ok b =>
    rw [haz] at h
    simp only [except_bind_ok] at h
    cases b with
    | true => simp at h
    | false =>
      rw [if_neg (by simp)] at h
      by_cases hcap : 48 ≤ pb.cap
      · rw [show (32 : Int) = ((32 : Nat) : Int) by norm_num,
          show (40 : Int) = ((40 : Nat) : Int) by norm_num,
          show (48 : Int) = ((48 : Nat) : Int) by norm_num] at h
        rw [reslice_nat_ok pb 32 40 (by omega) (by omega),
          reslice_nat_ok pb 40 48 (by omega) (by omega)] at h
        simp only [except_bind_ok] at h
        rw [sU64_lit_ok data _ _ _ (by omega),
          sU64_lit_ok data _ _ _ (by omega)] at h
        simp only [except_bind_ok] at h
        obtain ⟨nm, hnm⟩ := decodeNameWasmAux_ok data pb 36 56
        rw [show decodeNameWasm data pb = decodeNameWasmAux data pb 36 56
            from rfl, hnm] at h
        simp only [except_bind_ok, except_pure_eq_ok, Except.ok.injEq,
          Option.some.injEq] at h
        rw [← h]
        exact ⟨rfl, rfl⟩
      · rw [show (32 : Int) = ((32 : Nat) : Int) by norm_num,
          show (40 : Int) = ((40 : Nat) : Int) by norm_num,
          show (48 : Int) = ((48 : Nat) : Int) by norm_num] at h
        by_cases hcap2 : 40 ≤ pb.cap
        · rw [reslice_nat_ok pb 32 40 (by omega) (by omega)] at h
          simp only [except_bind_ok] at h
          rw [sU64_lit_ok data _ _ _ (by omega)] at h
          simp only [except_bind_ok] at h
          have hbad : reslice pb ((40 : Nat) : Int) ((48 : Nat) : Int) =
              .error .sliceBounds := by
            unfold reslice
            rw [if_neg (by
              intro hc
              obtain ⟨-, -, hc3⟩ := hc
              omega)]
          rw [hbad] at h
          simp at h
        · have hbad : reslice pb ((32 : Nat) : Int) ((40 : Nat) : Int) =
              .error .sliceBounds := by
            unfold reslice
            rw [if_neg (by
              intro hc
              obtain ⟨-, -, hc3⟩ := hc
              omega)]
          rw [hbad] at h
          simp at h

/-- Witness for C4 (amended) at the concrete start-greater-than-end
image: the emitted fields equal the raw little-endian decodes. -/
theorem gpt_record_lba_verbatim_witness :
    processEntry startAfterEndBuf ⟨1024, 128, 128⟩ 0 =
      .ok (some { number := 1, startLBA := 2, endLBA := 1, sizeGB := 0,
                  name := unnamedStr }) ∧
    (2 : Nat) = leN startAfterEndBuf (1024 + 32) 8 ∧
    (1 : Nat) = leN startAfterEndBuf (1024 + 40) 8 :=
  ⟨by decide,
   gpt_record_lba_verbatim startAfterEndBuf ⟨1024, 128, 128⟩ 0
     { number := 1, startLBA := 2, endLBA := 1, sizeGB := 0,
       name := unnamedStr } (by decide)⟩

@[simp]
theorem except_map_ok {ε α β : Type} (f : α → β) (a : α) :
    Except.map f (Except.ok a : Except ε α) = .ok (f a) := rfl

theorem cliEntryBytes_length (data : Bytes) (off esz : Nat)
    (hfit : off + esz ≤ data.length) :
    (cliEntryBytes data off esz).length = esz := by
  unfold cliEntryBytes
  simp only [List.length_map, List.length_take, List.length_drop]
  omega

theorem lget_cliEntryBytes (data : Bytes) (off esz j : Nat)
    (hfit : off + esz ≤ data.length) (hj : j < esz) :
    lget (cliEntryBytes data off esz) j = .ok (byteAt data (off + j)) := by
  unfold lget
  have hl : (cliEntryBytes data off esz).length = esz :=
    cliEntryBytes_length data off esz hfit
  rw [dif_pos (by omega)]
  congr 1
  rw [List.get_eq_getElem]
  unfold cliEntryBytes
  simp only [List.getElem_map, List.getElem_take, List.getElem_drop]
  rw [byteAt, List.getD_eq_getElem data 0 (by omega)]

theorem cliEntryBytes_getD (data : Bytes) (off esz j : Nat)
    (hfit : off + esz ≤ data.length) (hj : j < esz) :
    (cliEntryBytes data off esz).getD j 0 = byteAt data (off + j) := by
  have hl : (cliEntryBytes data off esz).length = esz :=
    cliEntryBytes_length data off esz hfit
  rw [List.getD_eq_getElem _ 0 (by omega)]
  unfold cliEntryBytes
  simp only [List.getElem_map, List.getElem_take, List.getElem_drop]
  rw [byteAt, List.getD_eq_getElem data 0 (by omega)]

theorem leBytes_map_u8 (data : Bytes) :
    ∀ (k a : Nat), a + k ≤ data.length →
      leBytes (((data.drop a).take k).map u8) = leN data a k := by
  intro k
  induction k with
  | zero =>
    intro a h
    simp [leBytes, leN]
  | succ m ih =>
    intro a h
    have ha : a < data.length := by omega
    rw [List.drop_eq_getElem_cons ha, List.take_succ_cons, List.map_cons]
    show u8 data[a] + 256 * leBytes (((data.drop (a + 1)).take m).map u8) =
      leN data a (m + 1)
    rw [ih (a + 1) (by omega)]
    simp [leN, byteAt, List.getD_eq_getElem data 0 ha,
      List.getElem?_eq_getElem ha]

theorem cliU64_bytes (data : Bytes) (off esz lo : Nat)
    (hfit : off + esz ≤ data.length) (hlo : lo + 8 ≤ esz) :
    cliU64 (cliEntryBytes data off esz) lo = .ok (leN data (off + lo) 8) := by
  unfold cliU64
  have hl : (cliEntryBytes data off esz).length = esz :=
    cliEntryBytes_length data off esz hfit
  rw [if_pos (by omega)]
  congr 1
  unfold cliEntryBytes
  rw [← List.map_drop, ← List.map_take, List.drop_take, List.drop_drop,
    List.take_take]
  rw [min_eq_left (by omega)]
  exact leBytes_map_u8 data 8 (off + lo) (by omega)

theorem allZero_equiv (data : Bytes) (off esz : Nat) (pb : GoSlice)
    (hst : pb.start = off) (hln : pb.len = esz) (hesz : 16 ≤ esz)
    (hfit : off + esz ≤ data.length) :
    ∀ n j, j + n = 16 →
      cliAllZeroAux (cliEntryBytes data off esz) n j =
        allZeroAux data pb n j := by
  intro n
  induction n with
  | zero => intro j hj; rfl
  | succ m ih =>
    intro j hj
    unfold cliAllZeroAux allZeroAux
    rw [lget_cliEntryBytes data off esz j hfit (by omega),
      sget_nat_ok data pb j (by omega), hst]
    simp only [except_bind_ok]
    by_cases hb : byteAt data (off + j) = 0
    · rw [hb]
      rw [if_neg (by simp), if_neg (by simp)]
      exact ih (j + 1) (by omega)
    · rw [if_pos hb, if_pos hb]

theorem name_equiv (data : Bytes) (off esz : Nat) (pb : GoSlice)
    (hst : pb.start = off) (hln : pb.len = esz) (hesz : 128 ≤ esz)
    (hfit : off + esz ≤ data.length)
    (hname : nameOK (cliEntryBytes data off esz)) :
    ∀ n j, j + 2 * n = 128 → 56 ≤ j → j % 2 = 0 →
      cliDecodeNameAux (cliEntryBytes data off esz) n j =
        decodeNameWasmAux data pb n j := by
  intro n
  induction n with
  | zero => intro j hj h56 hpar; rfl
  | succ m ih =>
    intro j hj h56 hpar
    unfold cliDecodeNameAux decodeNameWasmAux
    rw [if_pos (by omega)]
    rw [lget_cliEntryBytes data off esz j hfit (by omega),
      lget_cliEntryBytes data off esz (j + 1) hfit (by omega),
      sget_nat_ok data pb j (by omega),
      sget_nat_ok data pb (j + 1) (by omega), hst]
    simp only [except_bind_ok]
    by_cases hterm : byteAt data (off + j) = 0 ∧ byteAt data (off + (j + 1)) = 0
    · rw [if_pos hterm, if_pos hterm]
    · rw [if_neg hterm, if_neg hterm]
      rw [ih (j + 2) (by omega) (by omega) (by omega)]
      by_cases hhi : byteAt data (off + (j + 1)) = 0
      · have hlo : 32 ≤ byteAt data (off + j) ∧ byteAt data (off + j) ≤ 126 := by
          have hn := hname j (by omega) h56 hpar
          rw [cliEntryBytes_getD data off esz (j + 1) hfit (by omega),
            cliEntryBytes_getD data off esz j hfit (by omega)] at hn
          have := hn hhi
          rcases this with h0 | hpr
          · exact absurd ⟨h0, hhi⟩ hterm
          · exact hpr
        cases hd : decodeNameWasmAux data pb m (j + 2) with
        | error e => rfl
        | ok nm =>
          simp only [except_bind_ok]
          rw [if_pos hhi, if_pos ⟨hhi, hlo.1, hlo.2⟩]
      · cases hd : decodeNameWasmAux data pb m (j + 2) with
        | error e => rfl
        | ok nm =>
          simp only [except_bind_ok]
          rw [if_neg hhi, if_neg (by
            intro hc
            exact hhi hc.1)]

theorem allZeroAux_isOk (data : Bytes) (pb : GoSlice) (h16 : 16 ≤ pb.len) :
    ∀ n j, j + n = 16 → ∃ b, allZeroAux data pb n j = .ok b := by
  intro n
  induction n with
  | zero => intro j hj; exact ⟨true, rfl⟩
  | succ m ih =>
    intro j hj
    unfold allZeroAux
    rw [sget_nat_ok data pb j (by omega)]
    simp only [except_bind_ok]
    by_cases hb : byteAt data (pb.start + j) = 0
    · rw [hb, if_neg (by simp)]
      exact ih (j + 1) (by omega)
    · rw [if_pos hb]
      exact ⟨false, rfl⟩

theorem entry_equiv (data : Bytes) (off esz pc : Nat) (pb : GoSlice)
    (hst : pb.start = off) (hln : pb.len = esz)
    (hcap : pb.cap = data.length - off)
    (hesz : 128 ≤ esz) (hfit : off + esz ≤ data.length)
    (hname : nameOK (cliEntryBytes data off esz)) :
    ∃ o, processEntry data pb pc = .ok o ∧
      cliProcessEntry (cliEntryBytes data off esz) pc =
        .ok (Option.map projLine o) ∧
      (∀ r, o = some r → r.info = InfoStr.empty) := by
  obtain ⟨b, hb⟩ := allZeroAux_isOk data pb (by omega) 16 0 rfl
  have hcli : cliAllZero (cliEntryBytes data off esz) = .ok b := by
    show cliAllZeroAux (cliEntryBytes data off esz) 16 0 = .ok b
    rw [allZero_equiv data off esz pb hst hln (by omega) hfit 16 0 rfl]
    exact hb
  unfold processEntry cliProcessEntry
  rw [show allZeroCheck data pb = .ok b from hb, hcli]
  simp only [except_bind_ok]
  cases b with
  | true =>
    refine ⟨none, by rw [if_pos rfl]; rfl, by rw [if_pos rfl]; rfl, ?_⟩
    intro r h
    cases h
  | false =>
    rw [if_neg (by simp), if_neg (by simp)]
    rw [show (32 : Int) = ((32 : Nat) : Int) by norm_num,
      show (40 : Int) = ((40 : Nat) : Int) by norm_num,
      show (48 : Int) = ((48 : Nat) : Int) by norm_num]
    rw [reslice_nat_ok pb 32 40 (by omega) (by omega),
      reslice_nat_ok pb 40 48 (by omega) (by omega)]
    simp only [except_bind_ok]
    rw [sU64_lit_ok data _ _ _ (by omega), sU64_lit_ok data _ _ _ (by omega)]
    simp only [except_bind_ok]
    rw [cliU64_bytes data off esz 32 hfit (by omega),
      cliU64_bytes data off esz 40 hfit (by omega)]
    simp only [except_bind_ok]
    obtain ⟨nm, hnm⟩ := decodeNameWasmAux_ok data pb 36 56
    have hcn : cliDecodeName (cliEntryBytes data off esz) = .ok nm := by
      show cliDecodeNameAux (cliEntryBytes data off esz) 36 56 = .ok nm
      rw [name_equiv data off esz pb hst hln hesz hfit hname 36 56 (by omega)
        (by omega) (by omega)]
      exact hnm
    rw [show decodeNameWasm data pb = .ok nm from hnm, hcn]
    simp only [except_bind_ok, hst]
    refine ⟨some
      { number := (pc : Int) + 1,
        startLBA := leN data (off + 32) 8,
        endLBA := leN data (off + 40) 8,
        sizeGB := mkRat (f64 (u64 (u64 (u64 (leN data (off + 40) 8 +
          (18446744073709551616 - leN data (off + 32) 8)) + 1) * 512)))
          (1024 * 1024 * 1024),
        name := if nm = [] then unnamedStr else nm }, rfl, ?_, ?_⟩
    · simp [projLine]
    · intro r h
      cases h
      rfl

theorem wasmTuples_nil : wasmTuples [] = [] := rfl

theorem wasmTuples_cons_empty (r : PartitionInfo) (l : List PartitionInfo)
    (h : r.info = InfoStr.empty) :
    wasmTuples (r :: l) = projLine r :: wasmTuples l := by
  unfold wasmTuples
  rw [List.filter_cons, if_pos (by simp [h])]
  rfl

theorem loop_equiv (data : Bytes) (tOff num esz : Nat)
    (hesz : 128 ≤ esz) (hesz32 : esz < 4294967296)
    (hprod : num * esz < 4294967296)
    (hfit : tOff + num * esz ≤ data.length)
    (hlen63 : data.length < 9223372036854775808)
    (hname : ∀ i, i < num →
      nameOK (cliEntryBytes data (tOff + i * esz) esz)) :
    ∀ n i pc, i + n = num →
      ∃ l, gptLoopAux data (fullSlice data) ((tOff : Nat) : Int) num esz
        n i pc = .ok l ∧
        cliLoopAux data num esz n (tOff + i * esz) pc = .ok (wasmTuples l) := by
  intro n
  induction n with
  | zero => intro i pc hi; exact ⟨[], rfl, rfl⟩
  | succ m ih =>
    intro i pc hi
    have hiu : i < num := by omega
    have hmul : i * esz + esz ≤ num * esz := by
      calc i * esz + esz = (i + 1) * esz := by ring
        _ ≤ num * esz := Nat.mul_le_mul_right esz (by omega)
    have hb : tOff + i * esz + esz ≤ data.length := by omega
    have e1 : i64 (((tOff : Nat) : Int) + ((i * esz : Nat) : Int)) =
        ((tOff + i * esz : Nat) : Int) := by
      rw [← Nat.cast_add]
      exact i64_id (by omega) (by omega)
    have e2 : i64 (((tOff + i * esz : Nat) : Int) + ((esz : Nat) : Int)) =
        ((tOff + i * esz + esz : Nat) : Int) := by
      rw [← Nat.cast_add]
      exact i64_id (by omega) (by omega)
    unfold gptLoopAux cliLoopAux
    rw [u32_id (by omega), u32_id hesz32, e1, e2]
    rw [if_pos (by exact_mod_cast hb), if_pos hb]
    simp only [fullSlice]
    rw [e2]
    rw [reslice_lit_ok 0 data.length data.length (tOff + i * esz)
      (tOff + i * esz + esz) (by omega) (by omega)]
    simp only [except_bind_ok]
    obtain ⟨o, hw, hc, hinfo⟩ := entry_equiv data (tOff + i * esz) esz pc
      ⟨0 + (tOff + i * esz), tOff + i * esz + esz - (tOff + i * esz),
        data.length - (tOff + i * esz)⟩
      (by show 0 + (tOff + i * esz) = tOff + i * esz; omega)
      (by show tOff + i * esz + esz - (tOff + i * esz) = esz; omega)
      rfl hesz hb (hname i hiu)
    rw [hw]
    rw [show ((data.drop (tOff + i * esz)).take esz).map u8 =
      cliEntryBytes data (tOff + i * esz) esz from rfl]
    rw [hc]
    simp only [except_bind_ok]
    cases o with
    | none =>
      obtain ⟨l, hwl, hcl⟩ := ih (i + 1) pc (by omega)
      simp only [fullSlice] at hwl
      refine ⟨l, ?_, ?_⟩
      · exact hwl
      · rw [show tOff + i * esz + esz = tOff + (i + 1) * esz by ring]
        exact hcl
    | some r =>
      obtain ⟨l, hwl, hcl⟩ := ih (i + 1) (pc + 1) (by omega)
      simp only [fullSlice] at hwl
      refine ⟨r :: l, ?_, ?_⟩
      · rw [hwl]
        rfl
      · rw [show tOff + i * esz + esz = tOff + (i + 1) * esz by ring, hcl,
          wasmTuples_cons_empty r l (hinfo r rfl)]
        rfl

theorem cli_hdr_leN (file : Bytes) (hlen : 1024 ≤ file.length) (a k : Nat)
    (hak : a + k ≤ 512) :
    leBytes (((((file.drop 512).take 512).map u8).drop a).take k) =
      leN file (512 + a) k := by
  rw [← List.map_drop, ← List.map_take]
  rw [List.drop_take, List.drop_drop, List.take_take]
  rw [min_eq_left (by omega)]
  exact leBytes_map_u8 file k (512 + a) (by omega)

theorem cli_hdr_sig (file : Bytes) :
    (((file.drop 512).take 512).map u8).take 8 =
      ((file.drop 512).take 8).map u8 := by
  rw [← List.map_take, List.take_take, min_eq_left (by omega)]

/-- Claim C5 (amended): on every GPT image with valid inner signature,
entry size at least 128, no overflow in the entry-array extent, the
whole array in bounds, and every name-field code unit with zero high
byte either NUL or printable ASCII, the two shells' GPT readers produce
the same (index, startLBA, endLBA, sizeGB, name) tuples.  (The name
hypothesis is necessary: the command-line reader keeps every code unit
with zero high byte, the wasm reader only printable ASCII.) -/
theorem gpt_reader_equivalence (file : Bytes)
    (hlen : 1024 ≤ file.length)
    (hlen63 : file.length < 9223372036854775808)
    (hsig : ((file.drop 512).take 8).map u8 = efiPartSig)
    (hesz : 128 ≤ gptEntrySize file)
    (hprod : gptNumPartitions file * gptEntrySize file < 4294967296)
    (hfit : gptTableLBA file * 512 + gptNumPartitions file * gptEntrySize file
      ≤ file.length)
    (hname : ∀ i, i < gptNumPartitions file →
      nameOK (cliEntryBytes file
        (gptTableLBA file * 512 + i * gptEntrySize file) (gptEntrySize file))) :
    Except.map wasmTuples (readGPTPartitions file) =
      cli_readGPTPartitions file := by
  have hreq : goRequiredSize file =
      ((gptTableLBA file * 512 + gptNumPartitions file * gptEntrySize file :
        Nat) : Int) := by
    unfold goRequiredSize
    rw [u64_id (by omega), toInt64_id (by omega), u32_id hprod, ← Nat.cast_add]
    exact i64_id (by omega) (by omega)
  have htoff : toInt64 (u64 (gptTableLBA file * 512)) =
      ((gptTableLBA file * 512 : Nat) : Int) := by
    rw [u64_id (by omega), toInt64_id (by omega)]
  obtain ⟨l, hwl, hcl⟩ := loop_equiv file (gptTableLBA file * 512)
    (gptNumPartitions file) (gptEntrySize file) hesz
    (by have := leN_lt file 4 596; unfold gptEntrySize; omega) hprod hfit
    hlen63 hname (gptNumPartitions file) 0 0 (by omega)
  rw [show gptTableLBA file * 512 + 0 * gptEntrySize file =
    gptTableLBA file * 512 by ring] at hcl
  rw [readGPT_eq file hlen hsig, hreq,
    if_neg (by exact_mod_cast Nat.not_lt.mpr hfit), htoff]
  unfold gptLoop
  rw [hwl]
  simp only [except_bind_ok]
  unfold cli_readGPTPartitions
  rw [if_neg (show ¬(file.length < 1024) by omega)]
  simp only []
  rw [cli_hdr_sig file, if_neg (not_not_intro hsig)]
  rw [cli_hdr_leN file hlen 80 4 (by omega),
    cli_hdr_leN file hlen 84 4 (by omega),
    cli_hdr_leN file hlen 72 8 (by omega)]
  rw [show (512 + 80 : Nat) = 592 by norm_num,
    show (512 + 84 : Nat) = 596 by norm_num,
    show (512 + 72 : Nat) = 584 by norm_num]
  rw [show leN file 592 4 = gptNumPartitions file from rfl,
    show leN file 596 4 = gptEntrySize file from rfl,
    show leN file 584 8 = gptTableLBA file from rfl]
  rw [htoff]
  rw [if_pos (show (0 : Int) ≤ ((gptTableLBA file * 512 : Nat) : Int) from
    Int.natCast_nonneg _)]
  rw [Int.toNat_natCast]
  unfold cliLoop
  rw [hcl]
  by_cases hl : l = []
  · rw [if_pos hl, hl]
    rfl
  · rw [if_neg hl]
    rfl

/-- Claim C5 counterexample: on a valid GPT image whose single entry
name holds the UTF-16LE units 0x0001 and 'A', the wasm reader decodes
the name "A" while the command-line reader decodes 0x01 followed by
'A' — the two shells do not produce the same tuples, and the
command-line shell does not restrict kept code units to printable
ASCII. -/
theorem gpt_reader_equivalence_cex :
    Except.map wasmTuples (readGPTPartitions mixedNameBuf) ≠
      cli_readGPTPartitions mixedNameBuf := by
  decide

/-- Witness for C5 (amended) at a concrete image with an all-printable
(empty) name: both shells produce the same single tuple. -/
theorem gpt_reader_equivalence_witness :
    Except.map wasmTuples (readGPTPartitions startAfterEndBuf) =
      cli_readGPTPartitions startAfterEndBuf :=
  gpt_reader_equivalence startAfterEndBuf (by decide) (by decide)
    (by decide) (by decide) (by decide) (by decide) (by decide)
